import Mathlib

/-
Verification of the messaging core of the Bookstore Management System
(src/message_bus.py): the MessageBus (subscriber registry, bounded
history, delivery), the history/stats queries, and the per-agent
communicator mailbox.  Python dicts are modelled as insertion-ordered
association lists (matching CPython's ordered-dict semantics), handler
callbacks as labelled values carrying a failure flag (a callback that
raises), and delivery as a pure function that returns the new bus state
together with the trace of handler invocations and the logged error
lines.  Python truthiness tests (`if message.recipient_id:`,
`if limit:`, ...) are translated explicitly.
-/

set_option linter.unusedVariables false

/-- The MessageType enum of src/message_bus.py. -/
inductive MessageType where
  | purchase_request
  | purchase_completed
  | inventory_update
  | restock_request
  | restock_completed
  | order_created
  | order_processed
  | customer_inquiry
  | employee_action
  | system_alert
deriving DecidableEq, Repr

/-- The `.value` string of each enum member. -/
def MessageType.value : MessageType → String
  | .purchase_request => "purchase_request"
  | .purchase_completed => "purchase_completed"
  | .inventory_update => "inventory_update"
  | .restock_request => "restock_request"
  | .restock_completed => "restock_completed"
  | .order_created => "order_created"
  | .order_processed => "order_processed"
  | .customer_inquiry => "customer_inquiry"
  | .employee_action => "employee_action"
  | .system_alert => "system_alert"

/-- The Message dataclass.  `recipient_id = none` is Python's `None`
(broadcast); timestamps are modelled as integers. -/
structure Message where
  message_type : MessageType
  sender_id : String
  recipient_id : Option String := none
  content : List (String × String) := []
  timestamp : Int := 0
deriving DecidableEq, Repr

/-- A subscriber callback.  `hid` identifies the callback object;
`fails` says whether calling it raises an exception. -/
structure Handler where
  hid : Nat
  fails : Bool := false
deriving DecidableEq, Repr

/-- One handler invocation performed during delivery: callback
`handler`, registered under `agent_id`, called with `msg`. -/
structure Invocation where
  agent_id : String
  handler : Handler
  msg : Message
deriving DecidableEq, Repr

/-- The MessageBus state.  `subscribers` is the insertion-ordered dict
of agent id to callback list; `threads_started` counts how many
dispatcher threads have been launched (each `threading.Thread(...)` is
a fresh object) and `processor_thread` is the stored reference to the
most recently launched one. -/
structure MessageBus where
  subscribers : List (String × List Handler) := []
  message_history : List Message := []
  running : Bool := false
  threads_started : Nat := 0
  processor_thread : Option Nat := none
deriving DecidableEq, Repr

/-- MessageBus.__init__. -/
def MessageBus.initial : MessageBus := {}

/-- MessageBus.start: sets `running`, creates and launches a fresh
dispatcher thread and stores the reference to it.  The source has no
already-running guard. -/
def start (bus : MessageBus) : MessageBus :=
  { bus with
      running := true
      threads_started := bus.threads_started + 1
      processor_thread := some bus.threads_started }

/-- MessageBus.subscribe: creates the id's entry when absent, then
appends the callback. -/
def subscribe (bus : MessageBus) (agent_id : String) (callback : Handler) :
    MessageBus :=
  { bus with
      subscribers :=
        match bus.subscribers.lookup agent_id with
        | some _ =>
            bus.subscribers.map fun p =>
              if p.1 = agent_id then (p.1, p.2 ++ [callback]) else p
        | none => bus.subscribers ++ [(agent_id, [callback])] }

/-- MessageBus.unsubscribe: with a callback, removes its first
registered occurrence under the id; without one, removes the whole
entry. -/
def unsubscribe (bus : MessageBus) (agent_id : String)
    (callback : Option Handler := none) : MessageBus :=
  { bus with
      subscribers :=
        if (bus.subscribers.lookup agent_id).isSome then
          match callback with
          | some cb =>
              bus.subscribers.map fun p =>
                if p.1 = agent_id then (p.1, p.2.erase cb) else p
          | none => bus.subscribers.filter fun p => p.1 != agent_id
        else bus.subscribers }

/-- The `self.message_history[-1000:]` trim applied after appending. -/
def truncHistory (h : List Message) : List Message :=
  if h.length > 1000 then h.drop (h.length - 1000) else h

/-- Last `n` elements of a list. -/
def lastN (n : Nat) (l : List α) : List α := l.drop (l.length - n)

/-- Calling a callback: raises (an `Except.error`) exactly when the
callback's `fails` flag is set. -/
def runHandler (h : Handler) (m : Message) : Except String Unit :=
  if h.fails then Except.error ("handler " ++ toString h.hid ++ " raised")
  else Except.ok ()

/-- The per-recipient callback loop of MessageBus._deliver_message:
each callback is called inside its own try/except, so a raising
callback only contributes a logged error line and the loop goes on. -/
def deliverToHandlers (agent_id : String) (callbacks : List Handler)
    (m : Message) (tag : String) : List Invocation × List String :=
  match callbacks with
  | [] => ([], [])
  | h :: rest =>
      let tail := deliverToHandlers agent_id rest m tag
      match runHandler h m with
      | Except.ok _ => (⟨agent_id, h, m⟩ :: tail.1, tail.2)
      | Except.error e =>
          (⟨agent_id, h, m⟩ :: tail.1,
            (tag ++ agent_id ++ ": " ++ e) :: tail.2)

/-- The broadcast branch of MessageBus._deliver_message: every
subscriber entry whose id differs from the sender's gets the message. -/
def broadcastDeliver (subs : List (String × List Handler))
    (sender : String) (m : Message) : List Invocation × List String :=
  match subs with
  | [] => ([], [])
  | (a, cbs) :: rest =>
      let tail := broadcastDeliver rest sender m
      if a != sender then
        let here := deliverToHandlers a cbs m "Error broadcasting message to "
        (here.1 ++ tail.1, here.2 ++ tail.2)
      else tail

/-- MessageBus._deliver_message: append to history, trim to the last
1000, then deliver point-to-point when `recipient_id` is truthy (a
non-empty string) and broadcast otherwise.  Returns the new bus, the
invocation trace and the logged error lines. -/
def deliverMessage (bus : MessageBus) (m : Message) :
    MessageBus × List Invocation × List String :=
  let history := truncHistory (bus.message_history ++ [m])
  let res :=
    match m.recipient_id with
    | some r =>
        if r != "" then
          match bus.subscribers.lookup r with
          | some callbacks =>
              deliverToHandlers r callbacks m "Error delivering message to "
          | none => ([], [])
        else broadcastDeliver bus.subscribers m.sender_id m
    | none => broadcastDeliver bus.subscribers m.sender_id m
  ({ bus with message_history := history }, res)

/-- MessageBus._process_messages restricted to a queue snapshot: the
dispatcher loop pops each queued message in turn and delivers it,
accumulating the invocation trace and error log. -/
def processMessages (bus : MessageBus) (queued : List Message) :
    MessageBus × List Invocation × List String :=
  match queued with
  | [] => (bus, [], [])
  | m :: rest =>
      let r1 := deliverMessage bus m
      let r2 := processMessages r1.1 rest
      (r2.1, r1.2.1 ++ r2.2.1, r1.2.2 ++ r2.2.2)

/-- Python truthiness of an optional string: `None` and `""` are
falsy. -/
def strTruthy : Option String → Bool
  | none => false
  | some s => s != ""

/-- Python truthiness of an optional number: `None` and `0` are
falsy. -/
def sinceTruthy : Option Int → Bool
  | none => false
  | some t => t != 0

/-- Python slice `l[start:]`, including the negative-index and
clamping conventions. -/
def pySliceFrom (l : List α) (start : Int) : List α :=
  if 0 ≤ start then l.drop start.toNat
  else l.drop (l.length - (-start).toNat)

/-- The three sequential filters of MessageBus.get_message_history. -/
def filteredHistory (bus : MessageBus) (agent_id : Option String)
    (message_type : Option MessageType) (since : Option Int) :
    List Message :=
  let fm := bus.message_history
  let fm :=
    if strTruthy agent_id then
      fm.filter fun msg =>
        some msg.sender_id == agent_id || msg.recipient_id == agent_id
    else fm
  let fm :=
    if message_type.isSome then
      fm.filter fun msg => some msg.message_type == message_type
    else fm
  let fm :=
    if sinceTruthy since then
      fm.filter fun msg => decide (since.getD 0 ≤ msg.timestamp)
    else fm
  fm

/-- MessageBus.get_message_history: filter, then
`filtered_messages[-limit:] if limit else filtered_messages`. -/
def get_message_history (bus : MessageBus)
    (agent_id : Option String := none)
    (message_type : Option MessageType := none)
    (since : Option Int := none) (limit : Int := 100) : List Message :=
  let fm := filteredHistory bus agent_id message_type since
  if limit != 0 then pySliceFrom fm (-limit) else fm

/-- Matching all supplied filters at once: the spec-side reading of
get_message_history's filter stage (each supplied filter must hold;
an unsupplied filter holds vacuously). -/
def historyMatches (agent_id : Option String)
    (message_type : Option MessageType) (since : Option Int)
    (msg : Message) : Bool :=
  ((if sinceTruthy since then decide (since.getD 0 ≤ msg.timestamp)
      else true) &&
    (if message_type.isSome then some msg.message_type == message_type
      else true)) &&
  (if strTruthy agent_id then
      some msg.sender_id == agent_id || msg.recipient_id == agent_id
    else true)

/-- The stats dict returned by MessageBus.get_stats. -/
structure Stats where
  total_messages : Nat
  subscribers : Nat
  message_types : List (String × Nat)
  active_agents : List String
deriving DecidableEq, Repr

/-- `stats["message_types"][k] = stats["message_types"].get(k, 0) + 1`:
increment the key's entry, adding it at the end when absent. -/
def bumpCount (l : List (String × Nat)) (k : String) :
    List (String × Nat) :=
  match l.lookup k with
  | some _ => l.map fun p => if p.1 = k then (p.1, p.2 + 1) else p
  | none => l ++ [(k, 1)]

/-- MessageBus.get_stats. -/
def get_stats (bus : MessageBus) : Stats :=
  { total_messages := bus.message_history.length
    subscribers := bus.subscribers.length
    message_types :=
      bus.message_history.foldl
        (fun acc msg => bumpCount acc msg.message_type.value) []
    active_agents := bus.subscribers.map Prod.fst }

/-- AgentCommunicator.get_messages.  `available` is the content of the
private `received_messages` queue, together with anything that arrives
before the first wait elapses.  `queue.Queue.get(timeout=None)` on an
empty queue blocks until an item arrives: a call that never returns is
modelled as `none`.  Once a first message is observed the loop drains
the rest with a zero wait, so a returning call yields the whole batch
and an empty queue. -/
def get_messages (available : List Message) (timeout : Option Int) :
    Option (List Message × List Message) :=
  match available, timeout with
  | [], none => none
  | avail, _ => some (avail, [])

/-- Forget the failure flags of every registered callback. -/
def clearFails (bus : MessageBus) : MessageBus :=
  { bus with
      subscribers :=
        bus.subscribers.map fun p =>
          (p.1, p.2.map fun h => { h with fails := false }) }

/-- The identity of an invocation: which callback of which id ran. -/
def invKey (i : Invocation) : String × Nat := (i.agent_id, i.handler.hid)

/- ### Helper lemmas about delivery traces -/

theorem deliverToHandlers_trace (agent_id : String)
    (callbacks : List Handler) (m : Message) (tag : String) :
    (deliverToHandlers agent_id callbacks m tag).1 =
      callbacks.map (fun h => ⟨agent_id, h, m⟩) := by
  induction callbacks with
  | nil => rfl
  | cons h rest ih =>
      unfold deliverToHandlers
      cases runHandler h m <;> simp [ih]

theorem broadcastDeliver_trace (subs : List (String × List Handler))
    (sender : String) (m : Message) :
    (broadcastDeliver subs sender m).1 =
      (subs.filter fun p => p.1 != sender).flatMap
        (fun p => p.2.map fun h => ⟨p.1, h, m⟩) := by
  induction subs with
  | nil => rfl
  | cons p rest ih =>
      obtain ⟨a, cbs⟩ := p
      unfold broadcastDeliver
      cases hs : (a != sender) <;>
        simp [List.filter_cons, hs, ih, deliverToHandlers_trace]

/- ### Helper lemmas about the history buffer -/

theorem truncHistory_eq_lastN (h : List Message) :
    truncHistory h = lastN 1000 h := by
  unfold truncHistory lastN
  split
  · rfl
  · next hle =>
      have h0 : h.length - 1000 = 0 := by omega
      simp [h0]

theorem lastN_length (n : Nat) (l : List α) :
    (lastN n l).length = min n l.length := by
  unfold lastN
  simp [List.length_drop]
  omega

theorem lastN_append_lastN (n : Nat) (xs ys : List α) :
    lastN n (lastN n xs ++ ys) = lastN n (xs ++ ys) := by
  unfold lastN
  simp only [List.length_append, List.length_drop]
  rw [List.drop_append_eq_append_drop, List.drop_append_eq_append_drop,
    List.drop_drop]
  congr 1
  · congr 1
    omega
  · congr 1
    simp only [List.length_drop]
    omega

theorem deliverMessage_history (bus : MessageBus) (m : Message) :
    (deliverMessage bus m).1.message_history =
      lastN 1000 (bus.message_history ++ [m]) := by
  simp [deliverMessage, truncHistory_eq_lastN]

theorem processMessages_history (queued : List Message) :
    ∀ bus : MessageBus, bus.message_history.length ≤ 1000 →
      (processMessages bus queued).1.message_history =
        lastN 1000 (bus.message_history ++ queued) := by
  induction queued with
  | nil =>
      intro bus h
      have h0 : bus.message_history.length - 1000 = 0 := by omega
      simp [processMessages, lastN, h0]
  | cons m rest ih =>
      intro bus h
      have hlen : (deliverMessage bus m).1.message_history.length ≤ 1000 := by
        rw [deliverMessage_history, lastN_length]
        omega
      have hrec := ih (deliverMessage bus m).1 hlen
      simp only [processMessages]
      rw [hrec, deliverMessage_history, lastN_append_lastN]
      simp

theorem mem_lastN_append (xs : List α) (x : α) :
    x ∈ lastN 1000 (xs ++ [x]) := by
  unfold lastN
  rw [List.drop_append_eq_append_drop]
  have h1 : (xs ++ [x]).length - 1000 - xs.length = 0 := by
    simp [List.length_append]
  rw [h1]
  simp

/- ### Helper lemmas about broadcast counts -/


theorem count_map_mk (A : String) (m : Message) (cbs : List Handler)
    (h : Handler) :
    (cbs.map fun h' => (⟨A, h', m⟩ : Invocation)).count ⟨A, h, m⟩ =
      cbs.count h := by
  have hf : Function.Injective fun h' => (⟨A, h', m⟩ : Invocation) := by
    intro x y hxy
    simpa using congrArg Invocation.handler hxy
  simpa using List.count_map_of_injective cbs _ hf h

theorem broadcastDeliver_agents (subs : List (String × List Handler))
    (sender : String) (m : Message) :
    ∀ inv ∈ (broadcastDeliver subs sender m).1,
      inv.agent_id ∈ subs.map Prod.fst ∧ inv.agent_id ≠ sender := by
  intro inv hinv
  rw [broadcastDeliver_trace] at hinv
  obtain ⟨p, hp, hmem⟩ := List.mem_flatMap.mp hinv
  obtain ⟨hpsubs, hpne⟩ := List.mem_filter.mp hp
  obtain ⟨h, hh, rfl⟩ := List.mem_map.mp hmem
  refine ⟨List.mem_map.mpr ⟨p, hpsubs, rfl⟩, ?_⟩
  simpa using hpne

theorem broadcastDeliver_count_zero (subs : List (String × List Handler))
    (sender A : String) (m : Message) (h : Handler)
    (hA : A ∉ subs.map Prod.fst) :
    (broadcastDeliver subs sender m).1.count ⟨A, h, m⟩ = 0 := by
  rw [List.count_eq_zero]
  intro hmem
  exact hA (broadcastDeliver_agents subs sender m _ hmem).1

theorem broadcastDeliver_count (subs : List (String × List Handler))
    (sender A : String) (cbs : List Handler) (m : Message) (h : Handler)
    (hnd : (subs.map Prod.fst).Nodup) (hmem : (A, cbs) ∈ subs)
    (hA : A ≠ sender) :
    (broadcastDeliver subs sender m).1.count ⟨A, h, m⟩ = cbs.count h := by
  induction subs with
  | nil => simp at hmem
  | cons p rest ih =>
      obtain ⟨a, cbs'⟩ := p
      simp only [List.map_cons, List.nodup_cons] at hnd
      obtain ⟨hnotin, hnd'⟩ := hnd
      rw [broadcastDeliver_trace]
      rcases List.mem_cons.mp hmem with heq | hmem'
      · injection heq with h1 h2
        subst h1
        subst h2
        rw [List.filter_cons_of_pos (by simpa using hA), List.flatMap_cons,
          List.count_append]
        have hz : (broadcastDeliver rest sender m).1.count ⟨A, h, m⟩ = 0 :=
          broadcastDeliver_count_zero rest sender A m h hnotin
        rw [broadcastDeliver_trace] at hz
        simp only at hz ⊢
        rw [count_map_mk, hz]
        omega
      · have hAa : A ≠ a := by
          intro hcontra
          subst hcontra
          exact hnotin (List.mem_map.mpr ⟨(A, cbs), hmem', rfl⟩)
        have ihv := ih hnd' hmem'
        rw [broadcastDeliver_trace] at ihv
        cases hs : (a != sender) with
        | false =>
            rw [List.filter_cons_of_neg (by simpa using hs)]
            exact ihv
        | true =>
            rw [List.filter_cons_of_pos (by simpa using hs),
              List.flatMap_cons, List.count_append]
            have hz : (cbs'.map fun h' => (⟨a, h', m⟩ : Invocation)).count
                ⟨A, h, m⟩ = 0 := by
              rw [List.count_eq_zero]
              intro hc
              obtain ⟨h', hh', heq2⟩ := List.mem_map.mp hc
              exact hAa (congrArg Invocation.agent_id heq2).symm
            simp only at hz ⊢
            rw [hz, ihv]
            omega

/- ### Helper lemmas for get_stats counting -/


theorem lookup_map_bump (acc : List (String × Nat)) (k : String) (v : Nat)
    (h : acc.lookup k = some v) :
    (acc.map fun p => if p.1 = k then (p.1, p.2 + 1) else p).lookup k =
      some (v + 1) := by
  induction acc with
  | nil => simp at h
  | cons p rest ih =>
      obtain ⟨a, b⟩ := p
      by_cases hak : a = k
      · subst hak
        simp [List.lookup_cons] at h ⊢
        simpa using h
      · have hbeq : (k == a) = false := by simp [Ne.symm hak]
        simp only [List.lookup_cons, hbeq] at h
        simp only [List.map_cons, if_neg hak]
        simp only [List.lookup_cons, hbeq]
        exact ih h

theorem lookup_map_bump_other (acc : List (String × Nat)) (k k' : String)
    (hne : k' ≠ k) :
    (acc.map fun p => if p.1 = k then (p.1, p.2 + 1) else p).lookup k' =
      acc.lookup k' := by
  induction acc with
  | nil => rfl
  | cons p rest ih =>
      obtain ⟨a, b⟩ := p
      simp only [List.map_cons]
      by_cases hak : a = k
      · subst hak
        have hbeq : (k' == a) = false := by simpa using hne
        simp [List.lookup_cons, hbeq, ih]
      · simp only [if_neg hak]
        cases hbeq : (k' == a)
        · simp only [List.lookup_cons, hbeq]
          exact ih
        · simp only [List.lookup_cons, hbeq]

theorem bumpCount_lookup_same (acc : List (String × Nat)) (k : String) :
    ((bumpCount acc k).lookup k).getD 0 = (acc.lookup k).getD 0 + 1 := by
  unfold bumpCount
  cases h : acc.lookup k with
  | none =>
      rw [List.lookup_append, h]
      simp [List.lookup_cons]
  | some v =>
      rw [lookup_map_bump acc k v h]
      rfl

theorem bumpCount_lookup_other (acc : List (String × Nat)) (k k' : String)
    (hne : k' ≠ k) :
    (bumpCount acc k).lookup k' = acc.lookup k' := by
  unfold bumpCount
  cases h : acc.lookup k with
  | none =>
      rw [List.lookup_append]
      have hbeq : (k' == k) = false := by simpa using hne
      have h1 : ([(k, 1)] : List (String × Nat)).lookup k' = none := by
        simp only [List.lookup_cons, hbeq]
        rfl
      rw [h1]
      cases acc.lookup k' <;> rfl
  | some v => exact lookup_map_bump_other acc k k' hne

theorem foldl_bumpCount_lookup (l : List String) (k : String) :
    ∀ acc : List (String × Nat),
      ((l.foldl bumpCount acc).lookup k).getD 0 =
        (acc.lookup k).getD 0 + l.count k := by
  induction l with
  | nil => intro acc; simp
  | cons a t ih =>
      intro acc
      simp only [List.foldl_cons, List.count_cons]
      rw [ih]
      by_cases hak : a = k
      · subst hak
        rw [bumpCount_lookup_same]
        simp
        omega
      · rw [bumpCount_lookup_other acc a k (Ne.symm hak)]
        have hbeq : (a == k) = false := by simpa using hak
        simp [hbeq]

theorem get_stats_total_eq (bus : MessageBus) :
    (get_stats bus).total_messages = bus.message_history.length := rfl

theorem get_stats_kind_count (bus : MessageBus) (v : String) :
    (((get_stats bus).message_types).lookup v).getD 0 =
      (bus.message_history.map fun m => m.message_type.value).count v := by
  unfold get_stats
  simp only
  rw [← List.foldl_map, foldl_bumpCount_lookup]
  simp

/- ### Helper lemmas for the history query -/

theorem filteredHistory_eq_filter (bus : MessageBus) (a : Option String)
    (k : Option MessageType) (s : Option Int) :
    filteredHistory bus a k s =
      bus.message_history.filter (historyMatches a k s) := by
  unfold filteredHistory historyMatches
  cases h1 : strTruthy a <;> cases h2 : k.isSome <;>
    cases h3 : sinceTruthy s <;>
      simp [h1, h2, h3, List.filter_filter, Bool.and_assoc]

/- ### Helper lemmas for exception isolation -/

theorem lookup_clearFails (subs : List (String × List Handler))
    (r : String) :
    (subs.map fun p =>
        (p.1, p.2.map fun h => { h with fails := false })).lookup r =
      (subs.lookup r).map
        (fun cbs => cbs.map fun h => { h with fails := false }) := by
  induction subs with
  | nil => rfl
  | cons p rest ih =>
      obtain ⟨a, cbs⟩ := p
      cases hbeq : (r == a) <;> simp [List.lookup_cons, hbeq, ih]

theorem broadcastDeliver_clearFails (subs : List (String × List Handler))
    (sender : String) (m : Message) :
    ((broadcastDeliver
        (subs.map fun p => (p.1, p.2.map fun h => { h with fails := false }))
        sender m).1).map invKey =
      ((broadcastDeliver subs sender m).1).map invKey := by
  rw [broadcastDeliver_trace, broadcastDeliver_trace]
  induction subs with
  | nil => rfl
  | cons p rest ih =>
      obtain ⟨a, cbs⟩ := p
      cases hs : (a != sender) <;>
        simp [List.filter_cons, hs, ih, List.map_map, invKey,
          Function.comp]

theorem deliverMessage_clearFails_trace (bus : MessageBus) (m : Message) :
    ((deliverMessage (clearFails bus) m).2.1).map invKey =
      ((deliverMessage bus m).2.1).map invKey := by
  unfold deliverMessage clearFails
  cases m.recipient_id with
  | none =>
      simpa using
        broadcastDeliver_clearFails bus.subscribers m.sender_id m
  | some r =>
      cases hr : (r != "") with
      | false =>
          simpa [hr] using
            broadcastDeliver_clearFails bus.subscribers m.sender_id m
      | true =>
          simp only [hr, if_true]
          rw [lookup_clearFails]
          cases hl : bus.subscribers.lookup r <;>
            simp [deliverToHandlers_trace, List.map_map, invKey,
              Function.comp]

theorem deliverMessage_clearFails_bus (bus : MessageBus) (m : Message) :
    (deliverMessage (clearFails bus) m).1 =
      clearFails (deliverMessage bus m).1 := by
  simp [deliverMessage, clearFails]

theorem processMessages_clearFails (ms : List Message) :
    ∀ bus : MessageBus,
      ((processMessages (clearFails bus) ms).2.1).map invKey =
          ((processMessages bus ms).2.1).map invKey ∧
        (processMessages (clearFails bus) ms).1.message_history =
          (processMessages bus ms).1.message_history := by
  induction ms with
  | nil => intro bus; exact ⟨rfl, rfl⟩
  | cons m rest ih =>
      intro bus
      simp only [processMessages]
      constructor
      · rw [List.map_append, List.map_append,
          deliverMessage_clearFails_trace, deliverMessage_clearFails_bus,
          (ih (deliverMessage bus m).1).1]
      · rw [deliverMessage_clearFails_bus]
        exact (ih (deliverMessage bus m).1).2

/- ### Concrete fixtures for witnesses and counterexamples -/

/-- A callback that succeeds. -/
def wh0 : Handler := { hid := 0 }

/-- A callback that raises. -/
def wh1 : Handler := { hid := 1, fails := true }

/-- A callback registered for agent B in the broadcast fixture. -/
def bhB : Handler := { hid := 2 }

/-- A callback registered for agent C in the broadcast fixture. -/
def bhC : Handler := { hid := 3 }

/-- A point-to-point message from A to B. -/
def wMsgB : Message :=
  { message_type := .purchase_request, sender_id := "A",
    recipient_id := some "B", timestamp := 1 }

/-- A bus where B has two registered callbacks. -/
def wBusPTP : MessageBus := { subscribers := [("B", [wh0, wh1])] }

/-- A broadcast message sent by A. -/
def bMsg : Message :=
  { message_type := .system_alert, sender_id := "A", timestamp := 2 }

/-- A bus with three subscribed agents. -/
def bBus : MessageBus :=
  { subscribers := [("A", [wh0]), ("B", [bhB]), ("C", [bhC])] }

/-- The older of two history entries. -/
def cm1 : Message :=
  { message_type := .purchase_request, sender_id := "A", timestamp := 1 }

/-- The newer of two history entries. -/
def cm2 : Message :=
  { message_type := .system_alert, sender_id := "B", timestamp := 2 }

/-- A bus whose history holds cm1 then cm2 (cm2 arrived last). -/
def cBus4 : MessageBus := { message_history := [cm1, cm2] }

/-- A message used to overflow the history buffer. -/
def cMsgAlert : Message :=
  { message_type := .system_alert, sender_id := "S", timestamp := 3 }

/- ### Claim theorems -/

/-- C1: a Message with truthy recipient R delivers to exactly R's
registered callbacks in registration order; no callback registered
under another id is invoked; when R has no registry entry the
delivery invokes zero callbacks, raises no error, and the message is
still recorded in history. -/
theorem point_to_point_delivery (bus : MessageBus) (m : Message)
    (R : String) (hm : m.recipient_id = some R) (hR : R ≠ "") :
    (∀ cbs, bus.subscribers.lookup R = some cbs →
        (deliverMessage bus m).2.1 = cbs.map fun h => ⟨R, h, m⟩) ∧
    (∀ inv ∈ (deliverMessage bus m).2.1, inv.agent_id = R) ∧
    (bus.subscribers.lookup R = none →
        (deliverMessage bus m).2.1 = [] ∧
          (deliverMessage bus m).2.2 = []) ∧
    m ∈ (deliverMessage bus m).1.message_history := by
  have hRb : (R != "") = true := by simpa using hR
  refine ⟨?_, ?_, ?_, ?_⟩
  · intro cbs hcbs
    simp [deliverMessage, hm, hRb, hcbs, deliverToHandlers_trace]
  · intro inv hinv
    simp only [deliverMessage, hm, hRb, if_true] at hinv
    cases hl : bus.subscribers.lookup R with
    | none => rw [hl] at hinv; simp at hinv
    | some cbs =>
        rw [hl] at hinv
        simp only [deliverToHandlers_trace] at hinv
        obtain ⟨h, hh, rfl⟩ := List.mem_map.mp hinv
        rfl
  · intro hnone
    simp [deliverMessage, hm, hRb, hnone]
  · rw [deliverMessage_history]
    exact mem_lastN_append _ _

/-- Witness for C1: on a concrete bus where B registered two
callbacks (the second of which raises), a message addressed to B is
delivered to exactly those two callbacks in order. -/
theorem point_to_point_delivery_witness :
    (deliverMessage wBusPTP wMsgB).2.1 =
      [⟨"B", wh0, wMsgB⟩, ⟨"B", wh1, wMsgB⟩] :=
  (point_to_point_delivery wBusPTP wMsgB "B" rfl (by decide)).1
    [wh0, wh1] rfl

/-- C2: a broadcast Message (recipient absent) from sender S invokes
every callback of every subscribed id other than S exactly once with
the message, and invokes no callback registered under S's own id. -/
theorem broadcast_delivery (bus : MessageBus) (m : Message)
    (hnd : (bus.subscribers.map Prod.fst).Nodup)
    (hb : m.recipient_id = none) :
    (∀ A cbs, (A, cbs) ∈ bus.subscribers → A ≠ m.sender_id →
        ∀ h, (deliverMessage bus m).2.1.count ⟨A, h, m⟩ = cbs.count h) ∧
    (∀ inv ∈ (deliverMessage bus m).2.1,
        inv.agent_id ≠ m.sender_id) := by
  have heq : (deliverMessage bus m).2.1 =
      (broadcastDeliver bus.subscribers m.sender_id m).1 := by
    simp [deliverMessage, hb]
  constructor
  · intro A cbs hmem hA h
    rw [heq]
    exact broadcastDeliver_count bus.subscribers m.sender_id A cbs m h
      hnd hmem hA
  · intro inv hinv
    rw [heq] at hinv
    exact (broadcastDeliver_agents bus.subscribers m.sender_id m
      inv hinv).2

/-- Witness for C2: broadcasting from A on a bus with subscribers A,
B, C invokes B's callback exactly once. -/
theorem broadcast_delivery_witness :
    (deliverMessage bBus bMsg).2.1.count ⟨"B", bhB, bMsg⟩ =
      ([bhB] : List Handler).count bhB :=
  (broadcast_delivery bBus bMsg (by decide) rfl).1 "B" [bhB]
    (by decide) (by decide) bhB

/-- C3: starting from a history within the 1000 cap, processing any
queue leaves the history equal to the most recent 1000 entries of the
full arrival sequence, in arrival order, so it never exceeds 1000
entries and the oldest entries are evicted first. -/
theorem history_bounded (bus : MessageBus) (queued : List Message)
    (hlen : bus.message_history.length ≤ 1000) :
    (processMessages bus queued).1.message_history =
        lastN 1000 (bus.message_history ++ queued) ∧
      (processMessages bus queued).1.message_history.length =
        min 1000 (bus.message_history.length + queued.length) := by
  have h := processMessages_history queued bus hlen
  refine ⟨h, ?_⟩
  rw [h, lastN_length]
  simp

/-- Witness for C3: delivering one message to a fresh bus leaves a
one-entry history. -/
theorem history_bounded_witness :
    (processMessages MessageBus.initial [wMsgB]).1.message_history =
        lastN 1000 (MessageBus.initial.message_history ++ [wMsgB]) ∧
      (processMessages MessageBus.initial [wMsgB]).1.message_history.length =
        min 1000 (MessageBus.initial.message_history.length +
          ([wMsgB] : List Message).length) :=
  history_bounded MessageBus.initial [wMsgB] (by decide)

/-- C4 counterexample: with history (cm1 then cm2, cm2 most recent)
and no filters, get_message_history returns (cm1, cm2) — chronological
order — whereas a most-recent-first result would be (cm2, cm1).  The
two messages differ, so the returned order is not most-recent-first. -/
theorem history_order_counterexample :
    get_message_history cBus4 none none none 100 = [cm1, cm2] ∧
      cm1 ≠ cm2 := by
  constructor
  · rfl
  · decide

/-- C4 amended: for a positive limit, get_message_history returns the
most recent (at most) limit matching entries, but in chronological
(oldest-first) order — a sublist of the history, not a
most-recent-first view. -/
theorem history_query_chronological (bus : MessageBus)
    (a : Option String) (k : Option MessageType) (s : Option Int)
    (L : Int) (hL : 0 < L) :
    get_message_history bus a k s L =
        lastN L.toNat
          (bus.message_history.filter (historyMatches a k s)) ∧
      (get_message_history bus a k s L).Sublist bus.message_history := by
  have hscope : get_message_history bus a k s L =
      lastN L.toNat (filteredHistory bus a k s) := by
    unfold get_message_history pySliceFrom
    have hbne : (L != 0) = true := by
      simp only [bne_iff_ne, ne_eq]
      omega
    rw [if_pos hbne]
    have hneg : ¬ (0 ≤ -L) := by omega
    rw [if_neg hneg]
    simp [lastN]
  constructor
  · rw [hscope, filteredHistory_eq_filter]
  · rw [hscope]
    have h1 : (lastN L.toNat (filteredHistory bus a k s)).Sublist
        (filteredHistory bus a k s) := List.drop_sublist _ _
    have h2 : (filteredHistory bus a k s).Sublist bus.message_history := by
      rw [filteredHistory_eq_filter]
      exact List.filter_sublist _
    exact h1.trans h2

/-- Witness for the amended C4 at the concrete two-entry bus with
limit 1. -/
theorem history_query_chronological_witness :
    get_message_history cBus4 none none none 1 =
        lastN (1 : Int).toNat
          (cBus4.message_history.filter (historyMatches none none none)) ∧
      (get_message_history cBus4 none none none 1).Sublist
        cBus4.message_history :=
  history_query_chronological cBus4 none none none 1 (by decide)

/-- C5: a raising callback is caught per callback: the sequence of
callbacks invoked (per registered id) and the resulting history are
exactly those obtained when no callback raises, the per-recipient loop
always invokes every registered callback, and the dispatcher goes on
to the remaining queued messages. -/
theorem handler_failure_isolated (bus : MessageBus) (ms : List Message) :
    ((processMessages bus ms).2.1).map invKey =
        ((processMessages (clearFails bus) ms).2.1).map invKey ∧
      (processMessages bus ms).1.message_history =
        (processMessages (clearFails bus) ms).1.message_history ∧
      ∀ (aid : String) (cbs : List Handler) (m : Message) (tag : String),
        (deliverToHandlers aid cbs m tag).1 =
          cbs.map fun h => ⟨aid, h, m⟩ := by
  obtain ⟨h1, h2⟩ := processMessages_clearFails ms bus
  exact ⟨h1.symm, h2.symm, deliverToHandlers_trace⟩

/-- C6: draining an empty mailbox with a bounded wait returns an
empty batch and leaves the mailbox empty, so repeated calls with no
new arrivals return an empty batch every time. -/
theorem drain_empty_idempotent (t : Int) :
    get_messages [] (some t) = some ([], []) := rfl

/-- C7 counterexample: calling start twice on a fresh bus does not
leave the same state as calling it once — a second dispatcher thread
is launched. -/
theorem start_not_idempotent :
    start (start MessageBus.initial) ≠ start MessageBus.initial ∧
      (start (start MessageBus.initial)).threads_started = 2 ∧
      (start MessageBus.initial).threads_started = 1 := by
  refine ⟨?_, rfl, rfl⟩
  decide

/-- C7 amended: start() unconditionally sets `running` and launches a
fresh dispatcher thread each time it is called; a second call launches
an additional dispatcher loop (and replaces the stored thread
reference) instead of being a no-op. -/
theorem start_always_launches (bus : MessageBus) :
    (start bus).running = true ∧
      (start bus).threads_started = bus.threads_started + 1 ∧
      (start (start bus)).threads_started = bus.threads_started + 2 ∧
      (start (start bus)).processor_thread ≠
        (start bus).processor_thread := by
  refine ⟨rfl, rfl, rfl, ?_⟩
  simp [start]

/-- C8 counterexample: after 1001 deliveries to a fresh bus,
get_stats reports total_messages = 1000, not the 1001 messages
actually delivered — the total is the retained-history length, which
is capped. -/
theorem stats_total_capped :
    (get_stats (processMessages MessageBus.initial
        (List.replicate 1001 cMsgAlert)).1).total_messages = 1000 ∧
      (List.replicate 1001 cMsgAlert).length = 1001 := by
  constructor
  · have h := processMessages_history (List.replicate 1001 cMsgAlert)
      MessageBus.initial (by decide)
    rw [get_stats_total_eq, h, lastN_length]
    have hlen : (MessageBus.initial.message_history ++
        List.replicate 1001 cMsgAlert).length = 1001 := by
      rw [List.length_append, List.length_replicate]
      rfl
    rw [hlen]
    omega
  · rw [List.length_replicate]

/-- C8 amended: get_stats reports the length of the retained history
(the delivered count capped at 1000 by retention), the number of
subscriber entries, the per-kind counts over the retained history, and
the currently registered actor ids. -/
theorem stats_report (bus : MessageBus) (v : String) :
    (get_stats bus).total_messages = bus.message_history.length ∧
      (get_stats bus).subscribers = bus.subscribers.length ∧
      (get_stats bus).active_agents = bus.subscribers.map Prod.fst ∧
      (((get_stats bus).message_types).lookup v).getD 0 =
        (bus.message_history.map fun m => m.message_type.value).count v :=
  ⟨rfl, rfl, rfl, get_stats_kind_count bus v⟩

/-- C9: a zero limit skips truncation entirely (all matching entries
are returned), while any positive limit L returns at most L entries. -/
theorem limit_zero_returns_all (bus : MessageBus) (a : Option String)
    (k : Option MessageType) (s : Option Int) (L : Int) (hL : 0 < L) :
    get_message_history bus a k s 0 = filteredHistory bus a k s ∧
      (get_message_history bus a k s L).length ≤ L.toNat := by
  constructor
  · unfold get_message_history
    simp
  · unfold get_message_history pySliceFrom
    have hbne : (L != 0) = true := by
      simp only [bne_iff_ne, ne_eq]
      omega
    rw [if_pos hbne]
    have hneg : ¬ (0 ≤ -L) := by omega
    rw [if_neg hneg]
    simp only [List.length_drop, neg_neg]
    omega

/-- Witness for C9 at the concrete two-entry bus with limit 1. -/
theorem limit_zero_returns_all_witness :
    get_message_history cBus4 none none none 0 =
        filteredHistory cBus4 none none none ∧
      (get_message_history cBus4 none none none 1).length ≤
        (1 : Int).toNat :=
  limit_zero_returns_all cBus4 none none none 1 (by decide)

/-- C10: get_messages with the default unbounded wait on an empty
mailbox never returns (modelled as `none`); whenever it does return,
the batch is nonempty; and a bounded wait always returns. -/
theorem unbounded_wait_blocks :
    get_messages [] none = none ∧
      (∀ avail batch rest,
          get_messages avail none = some (batch, rest) → batch ≠ []) ∧
      (∀ (avail : List Message) (t : Int),
          (get_messages avail (some t)).isSome = true) := by
  refine ⟨rfl, ?_, ?_⟩
  · intro avail batch rest h
    cases avail with
    | nil => simp [get_messages] at h
    | cons x xs =>
        simp only [get_messages, Option.some.injEq, Prod.mk.injEq] at h
        intro hc
        rw [hc] at h
        exact List.cons_ne_nil x xs h.1
  · intro avail t
    cases avail <;> rfl

/-- Witness for C10: a mailbox holding one message returns it even
with the unbounded wait, and the batch is nonempty. -/
theorem unbounded_wait_blocks_witness :
    get_messages [wMsgB] none = some ([wMsgB], []) ∧
      ([wMsgB] : List Message) ≠ [] :=
  ⟨rfl, unbounded_wait_blocks.2.1 [wMsgB] [wMsgB] [] rfl⟩
